import Mathlib

/-!
Verification of the CKTextKitRendererCache fragment
(`src/CKLabel/componentkit/ComponentTextKit/TextKit/CKTextKitRendererCache.h`).

The header defines:
- `CK::TextKit::ApplicationObserver`: registers two CFNotificationCenter
  observers (low-memory and entered-background) in its two-argument
  constructor; the member declared `ApplicationObserver()` (lines 47-56)
  is a *default constructor* (there is no `~`), whose body contains the
  `CFNotificationCenterRemoveObserver` calls.
- `CK::TextKit::Renderer::Key`, `KeyHasher`: a cache key with a
  precomputed hash and a short-circuited ordered `operator==`.
- `CK::TextKit::Renderer::Cache`: a thin facade over
  `CK::ConcurrentCacheImpl` (declared in `CKCacheImpl.h`, not part of
  this fragment), registering an `ApplicationObserver` whose hooks call
  `compact(0.95)` and `removeAllObjects()`.

The engine `ConcurrentCacheImpl` is not in the fragment; where a property
depends on it, the engine is modelled from the specification's contract
(each such definition carries a doc comment starting `Modelled from the
spec:`).
-/

set_option autoImplicit false

namespace CKRendererCache

/-! ## CFNotificationCenter model (for the ApplicationObserver lifecycle) -/

/-- The two notification names the observer registers for:
`UIApplicationDidReceiveMemoryWarningNotification` and
`UIApplicationDidEnterBackgroundNotification`. -/
inductive NName where
  | lowMemory
  | enteredBackground
deriving DecidableEq, Repr

/-- State of the local CFNotificationCenter: the list of
(observer identity, notification name) registrations, in registration
order.  Observer identities model the `this` pointers passed to
`CFNotificationCenterAddObserver`. -/
structure NCState where
  regs : List (Nat × NName)
deriving DecidableEq, Repr

/-- A notification center with no registrations. -/
def emptyNC : NCState := ⟨[]⟩

/-- `CFNotificationCenterAddObserver(center, observer, handler, name, NULL, ...)`:
appends a registration for the observer under the given name. -/
def addObserver (st : NCState) (obs : Nat) (n : NName) : NCState :=
  ⟨st.regs ++ [(obs, n)]⟩

/-- `CFNotificationCenterRemoveObserver(center, observer, name, NULL)`:
drops every registration of that observer under that name. -/
def removeObserver (st : NCState) (obs : Nat) (n : NName) : NCState :=
  ⟨st.regs.filter (fun r => !(decide (r.1 = obs) && decide (r.2 = n)))⟩

/-- Effect on the notification center of the two-argument constructor
`ApplicationObserver(lowMem, bg)` (header lines 30-46): registers `this`
for the low-memory notification, then for the entered-background
notification. -/
def applicationObserverCtor (st : NCState) (this : Nat) : NCState :=
  addObserver (addObserver st this .lowMemory) this .enteredBackground

/-- Effect on the notification center of the member declared
`ApplicationObserver()` (header lines 47-56).  It is spelled without a
`~`, so in C++ it is a *default constructor*, not a destructor; its body
removes both registrations. -/
def applicationObserverDefaultCtor (st : NCState) (this : Nat) : NCState :=
  removeObserver (removeObserver st this .lowMemory) this .enteredBackground

/-- Effect on the notification center of destroying an
`ApplicationObserver`.  The struct declares no `~ApplicationObserver`,
so its destructor is the implicitly-defined one: it destroys the two
`std::function` members and touches no notification-center state. -/
def applicationObserverImplicitDtor (st : NCState) (_this : Nat) : NCState :=
  st

/-- Effect on the notification center of
`Cache::Cache(name, maxCost, compactionFactor)` (header lines 121-127):
`new ApplicationObserver(lambda1, lambda2)` runs the two-argument
constructor on a fresh observer address. -/
def cacheCtorNC (st : NCState) (obsAddr : Nat) : NCState :=
  applicationObserverCtor st obsAddr

/-- Effect on the notification center of `Cache::~Cache()` (header lines
129-131): `delete applicationObserver` runs the implicitly-defined
destructor of `ApplicationObserver` and then frees the memory. -/
def cacheDtorNC (st : NCState) (obsAddr : Nat) : NCState :=
  applicationObserverImplicitDtor st obsAddr

/-! ## Key, operator== and KeyHasher (header lines 64-88) -/

/-- `UIUserInterfaceStyle` (UIKit enum). -/
inductive UIUserInterfaceStyle where
  | unspecified
  | light
  | dark
deriving DecidableEq, Repr

/-- `CGSize`; CGFloat coordinates modelled as rationals. -/
structure CGSize where
  width : ℚ
  height : ℚ
deriving DecidableEq, Repr

/-- `CGSizeEqualToSize`: componentwise equality of sizes. -/
def CGSizeEqualToSize (a b : CGSize) : Bool :=
  decide (a.width = b.width) && decide (a.height = b.height)

/-- `CK::TextKit::Renderer::Key` (header lines 64-81).  The
`CKTextKitAttributes` payload is opaque to this fragment, so it is a
type parameter `A`; its `operator==` is taken to decide equality. -/
structure Key (A : Type) where
  userInterfaceStyle : UIUserInterfaceStyle
  attributes : A
  constrainedSize : CGSize
  hash : Nat
deriving DecidableEq, Repr

/-- Labels for the four comparisons in `Key::operator==`, in source
order (header lines 76-79). -/
inductive KeyCmp where
  | hashCmp
  | sizeCmp
  | attrCmp
  | styleCmp
deriving DecidableEq, Repr

/-- Short-circuit conjunction over a list of labelled checks, returning
the result and the list of checks actually evaluated: `&&` stops at the
first `false`. -/
def sccAnd : List (KeyCmp × Bool) → Bool × List KeyCmp
  | [] => (true, [])
  | (l, b) :: rest =>
    if b then
      let r := sccAnd rest
      (r.1, l :: r.2)
    else
      (false, [l])

/-- The four comparisons of `Key::operator==` in their source order:
hash, then constrained size, then attributes, then user-interface style
(header lines 76-79). -/
def keyChecks {A : Type} [DecidableEq A] (k o : Key A) : List (KeyCmp × Bool) :=
  [(.hashCmp, decide (k.hash = o.hash)),
   (.sizeCmp, CGSizeEqualToSize k.constrainedSize o.constrainedSize),
   (.attrCmp, decide (k.attributes = o.attributes)),
   (.styleCmp, decide (k.userInterfaceStyle = o.userInterfaceStyle))]

/-- `Key::operator==` (header lines 73-80): the short-circuited
conjunction of the four checks. -/
def keyEq {A : Type} [DecidableEq A] (k o : Key A) : Bool :=
  (sccAnd (keyChecks k o)).1

/-- The comparisons `Key::operator==` actually performs on `(k, o)`,
in order. -/
def keyEqTrace {A : Type} [DecidableEq A] (k o : Key A) : List KeyCmp :=
  (sccAnd (keyChecks k o)).2

/-- `KeyHasher::operator()` (header lines 83-88): returns the key's
stored precomputed hash. -/
def keyHasher {A : Type} (k : Key A) : Nat :=
  k.hash

/-! ## The cache engine

`CK::ConcurrentCacheImpl` is declared in `CKCacheImpl.h`, which is not
part of this fragment; it is modelled here from the specification's
CacheStore contract (spec sections 3 and 4.1). -/

/-- Rational multiplication written out through `mkRat` so that it is
kernel-computable; `ratMul_eq` below shows it is the multiplication of
`ℚ`. -/
def ratMul (a b : ℚ) : ℚ := mkRat (a.num * b.num) (a.den * b.den)

/-- Modelled from the spec: one cached item — key, payload, cost
("Entry: owns payload, numeric cost, and a recency token"; the recency
token is represented by the entry's position in the store's
recency-ordered list). -/
structure Entry (K V : Type) where
  key : K
  payload : V
  cost : Nat
deriving DecidableEq, Repr

/-- Sum of the costs of a list of entries. -/
def totalCost {K V : Type} (l : List (Entry K V)) : Nat :=
  (l.map (fun e => e.cost)).sum

/-- Modelled from the spec: the CacheStore — a keyed store with a
recency-ordered structure for eviction ("hash-indexed mapping from key
to Entry plus a recency-ordered structure").  `entries` is kept in
recency order, least recently touched first, most recently touched
last; ties in recency are impossible since touching moves an entry to
the very end, so list order also encodes the insertion-order tie-break. -/
structure CacheStore (K V : Type) where
  maxCost : Nat
  compactionFactor : ℚ
  entries : List (Entry K V)
deriving DecidableEq, Repr

/-- A freshly constructed store with the given configuration and no
entries. -/
def mkStore (K V : Type) (maxCost : Nat) (compactionFactor : ℚ) : CacheStore K V :=
  ⟨maxCost, compactionFactor, []⟩

/-- Remove the entry (if any) stored under key `k`. -/
def removeKey {K V : Type} [DecidableEq K] (k : K) (l : List (Entry K V)) :
    List (Entry K V) :=
  l.filter (fun e => !(decide (e.key = k)))

/-- Modelled from the spec: the compaction loop — "Evicts
least-recently-used entries until total cost ≤ maxCost * factor"
(spec section 4.1, `compact`).  Removes from the least-recent end while
the total cost exceeds the target. -/
def evictUntil {K V : Type} (target : ℚ) : List (Entry K V) → List (Entry K V)
  | [] => []
  | e :: rest =>
    if (totalCost (e :: rest) : ℚ) ≤ target then e :: rest
    else evictUntil target rest

/-- Modelled from the spec: the insert-time eviction pass — "removes
least-recently-used entries until total cost is at or below
maxCost * compactionFactor ... or until only the just-inserted entry
remains" (spec section 4.1, `insert`).  The just-inserted entry sits at
the most-recent end, so it is the last survivor. -/
def evictKeepLast {K V : Type} (target : ℚ) : List (Entry K V) → List (Entry K V)
  | [] => []
  | [e] => [e]
  | e :: rest =>
    if (totalCost (e :: rest) : ℚ) ≤ target then e :: rest
    else evictKeepLast target rest

/-- Modelled from the spec: `insert(key, payload, cost)` — "inserts or
replaces the Entry for key; updates total cost; if total cost now
exceeds maxCost, triggers an eviction pass" down to the compaction
target, keeping at least the just-inserted entry (spec section 4.1). -/
def CacheStore.insert {K V : Type} [DecidableEq K]
    (s : CacheStore K V) (k : K) (v : V) (c : Nat) : CacheStore K V :=
  if s.maxCost < totalCost (removeKey k s.entries ++ [⟨k, v, c⟩]) then
    { s with
      entries := evictKeepLast (ratMul (s.maxCost : ℚ) s.compactionFactor)
                   (removeKey k s.entries ++ [⟨k, v, c⟩]) }
  else
    { s with entries := removeKey k s.entries ++ [⟨k, v, c⟩] }

/-- Modelled from the spec: `find(key)` — "On hit: updates recency token
to most recent, returns payload.  On miss: returns empty, no side
effects" (spec section 4.1).  Returns the result together with the
updated store. -/
def CacheStore.find {K V : Type} [DecidableEq K]
    (s : CacheStore K V) (k : K) : Option V × CacheStore K V :=
  match s.entries.find? (fun e => decide (e.key = k)) with
  | none => (none, s)
  | some e => (some e.payload, { s with entries := removeKey k s.entries ++ [e] })

/-- Modelled from the spec: `compact(factor)` — "Evicts
least-recently-used entries until total cost ≤ maxCost * factor"
(spec section 4.1). -/
def CacheStore.compact {K V : Type} (s : CacheStore K V) (f : ℚ) : CacheStore K V :=
  { s with entries := evictUntil (ratMul (s.maxCost : ℚ) f) s.entries }

/-- Modelled from the spec: `removeAllObjects()` — "Drops every Entry,
resets total cost to zero" (spec section 4.1). -/
def CacheStore.removeAllObjects {K V : Type} (s : CacheStore K V) : CacheStore K V :=
  { s with entries := [] }

/-! ## The Cache facade (header lines 115-148) -/

/-- `CK::TextKit::Renderer::Cache` (header lines 115-148): a thin
wrapper holding a `ConcurrentCacheImpl`.  The mutex and the observer
pointer carry no sequential behavior of their own. -/
structure Cache (K V : Type) where
  cache : CacheStore K V
deriving DecidableEq, Repr

/-- `Cache::cacheObject(key, object, cost)` (header lines 133-135):
delegates to `cache.insert(key, object, cost)`. -/
def Cache.cacheObject {K V : Type} [DecidableEq K]
    (c : Cache K V) (key : K) (object : V) (cost : Nat) : Cache K V :=
  ⟨c.cache.insert key object cost⟩

/-- `Cache::objectForKey(key)` (header lines 137-139): returns
`cache.find(key)`; the updated engine state is the second component. -/
def Cache.objectForKey {K V : Type} [DecidableEq K]
    (c : Cache K V) (key : K) : Option V × Cache K V :=
  ((c.cache.find key).1, ⟨(c.cache.find key).2⟩)

/-- `Cache::compact(compactionFactor)` (header lines 141-143): delegates
to `cache.compact(compactionFactor)`. -/
def Cache.compact {K V : Type} (c : Cache K V) (compactionFactor : ℚ) : Cache K V :=
  ⟨c.cache.compact compactionFactor⟩

/-- `Cache::removeAllObjects()` (header lines 145-147): delegates to
`cache.removeAllObjects()`. -/
def Cache.removeAllObjects {K V : Type} (c : Cache K V) : Cache K V :=
  ⟨c.cache.removeAllObjects⟩

/-- The low-memory hook installed by the `Cache` constructor (header
lines 122-123): the lambda `[this] { compact(0.95); }`. -/
def Cache.onLowMemoryHook {K V : Type} (c : Cache K V) : Cache K V :=
  c.compact (mkRat 95 100)

/-- The entered-background hook installed by the `Cache` constructor
(header lines 124-125): the lambda `[this] { removeAllObjects(); }`. -/
def Cache.onEnterBackgroundHook {K V : Type} (c : Cache K V) : Cache K V :=
  c.removeAllObjects

/-! ## Operation sequences and the precondition-checked interface -/

/-- An `insert` or `compact` call, for stating properties of operation
sequences against the engine. -/
inductive COp (K V : Type) where
  | ins (k : K) (v : V) (cost : Nat)
  | comp (f : ℚ)

/-- Valid arguments for an operation: a compaction factor must lie in
(0,1] (spec section 6); an insert's (unsigned) cost is unconstrained. -/
def validCOp {K V : Type} : COp K V → Bool
  | .ins _ _ _ => true
  | .comp f => decide (0 < f) && decide (f ≤ 1)

/-- Apply one engine operation. -/
def applyCOp {K V : Type} [DecidableEq K] (s : CacheStore K V) :
    COp K V → CacheStore K V
  | .ins k v c => s.insert k v c
  | .comp f => s.compact f

/-- Run a sequence of engine operations left to right. -/
def runOps {K V : Type} [DecidableEq K] (s : CacheStore K V) :
    List (COp K V) → CacheStore K V
  | [] => s
  | op :: rest => runOps (applyCOp s op) rest

/-- Modelled from the spec: the programmer errors of section 7 —
"negative cost, compaction factor outside (0,1]". -/
inductive ContractViolation where
  | negativeCost
  | factorOutOfRange
deriving DecidableEq, Repr

/-- Modelled from the spec: `insert` with its precondition `cost >= 0`
checked at the boundary (section 7: a negative cost "fails fast ...
rather than be silently tolerated"); the cost crosses the boundary as a
signed number. -/
def CacheStore.insertChecked {K V : Type} [DecidableEq K]
    (s : CacheStore K V) (k : K) (v : V) (c : Int) :
    Except ContractViolation (CacheStore K V) :=
  if c < 0 then .error .negativeCost
  else .ok (s.insert k v c.toNat)

/-- Modelled from the spec: `compact` with its precondition
`factor in (0,1]` checked at the boundary (section 7: a factor outside
(0,1] "fails fast ... rather than be silently tolerated"). -/
def CacheStore.compactChecked {K V : Type}
    (s : CacheStore K V) (f : ℚ) :
    Except ContractViolation (CacheStore K V) :=
  if 0 < f ∧ f ≤ 1 then .ok (s.compact f) else .error .factorOutOfRange

/-! ## Helper lemmas -/

theorem ratMul_eq (a b : ℚ) : ratMul a b = a * b :=
  (Rat.mul_eq_mkRat a b).symm

theorem sccAnd_fst (l : List (KeyCmp × Bool)) :
    (sccAnd l).1 = l.all (fun c => c.2) := by
  induction l with
  | nil => rfl
  | cons hd tl ih =>
    obtain ⟨a, b⟩ := hd
    cases b <;> simp [sccAnd, ih]

theorem CGSizeEqualToSize_iff (a b : CGSize) :
    CGSizeEqualToSize a b = true ↔ a = b := by
  cases a
  cases b
  simp [CGSizeEqualToSize]

theorem CGSizeEqualToSize_self (a : CGSize) : CGSizeEqualToSize a a = true := by
  simp [CGSizeEqualToSize]

theorem CGSizeEqualToSize_eq_false {a b : CGSize} (h : a ≠ b) :
    CGSizeEqualToSize a b = false :=
  (Bool.not_eq_true _).mp (fun hh => h ((CGSizeEqualToSize_iff a b).mp hh))

theorem evictUntil_cons {K V : Type} (t : ℚ) (e : Entry K V) (rest : List (Entry K V)) :
    evictUntil t (e :: rest) =
      if (totalCost (e :: rest) : ℚ) ≤ t then e :: rest
      else evictUntil t rest := by
  rw [evictUntil]

theorem evictKeepLast_cons₂ {K V : Type} (t : ℚ) (e e₂ : Entry K V)
    (rest : List (Entry K V)) :
    evictKeepLast t (e :: e₂ :: rest) =
      if (totalCost (e :: e₂ :: rest) : ℚ) ≤ t then e :: e₂ :: rest
      else evictKeepLast t (e₂ :: rest) := by
  rw [evictKeepLast]
  intro h
  cases h

/-- The compaction loop reaches its target whenever the target is
nonnegative (an empty store has cost zero). -/
theorem totalCost_evictUntil_le {K V : Type} (t : ℚ) (ht : 0 ≤ t)
    (l : List (Entry K V)) :
    (totalCost (evictUntil t l) : ℚ) ≤ t := by
  induction l with
  | nil => simpa [evictUntil, totalCost] using ht
  | cons e rest ih =>
    rw [evictUntil_cons]
    split
    · assumption
    · exact ih

/-- The insert-time eviction loop either reaches its target or leaves
at most one entry. -/
theorem evictKeepLast_le_or_single {K V : Type} (t : ℚ) (l : List (Entry K V)) :
    (totalCost (evictKeepLast t l) : ℚ) ≤ t ∨ (evictKeepLast t l).length ≤ 1 := by
  induction l with
  | nil => right; simp [evictKeepLast]
  | cons e rest ih =>
    cases rest with
    | nil => right; simp [evictKeepLast]
    | cons e₂ rest₂ =>
      rw [evictKeepLast_cons₂]
      split
      · left; assumption
      · exact ih

/-- Compaction removes a prefix of the recency-ordered list: the
survivors are a suffix (`List.drop`), i.e. entries are removed strictly
least-recently-touched first. -/
theorem evictUntil_drop {K V : Type} (t : ℚ) (l : List (Entry K V)) :
    ∃ n, evictUntil t l = l.drop n := by
  induction l with
  | nil => exact ⟨0, rfl⟩
  | cons e rest ih =>
    rw [evictUntil_cons]
    split
    · exact ⟨0, rfl⟩
    · obtain ⟨n, hn⟩ := ih
      exact ⟨n + 1, hn⟩

/-- The insert-time eviction loop likewise removes a prefix of the
recency-ordered list. -/
theorem evictKeepLast_drop {K V : Type} (t : ℚ) (l : List (Entry K V)) :
    ∃ n, evictKeepLast t l = l.drop n := by
  induction l with
  | nil => exact ⟨0, rfl⟩
  | cons e rest ih =>
    cases rest with
    | nil => exact ⟨0, rfl⟩
    | cons e₂ rest₂ =>
      rw [evictKeepLast_cons₂]
      split
      · exact ⟨0, rfl⟩
      · obtain ⟨n, hn⟩ := ih
        exact ⟨n + 1, hn⟩

/-- `insert` and `compact` leave the store's configuration unchanged. -/
theorem insert_config {K V : Type} [DecidableEq K] (s : CacheStore K V)
    (k : K) (v : V) (c : Nat) :
    (s.insert k v c).maxCost = s.maxCost ∧
    (s.insert k v c).compactionFactor = s.compactionFactor := by
  rw [CacheStore.insert]
  split <;> exact ⟨rfl, rfl⟩

theorem compact_config {K V : Type} (s : CacheStore K V) (f : ℚ) :
    (s.compact f).maxCost = s.maxCost ∧
    (s.compact f).compactionFactor = s.compactionFactor :=
  ⟨rfl, rfl⟩

/-- After an `insert` on a store whose compaction factor lies in [0,1],
either at most one entry remains or the total cost is within `maxCost`. -/
theorem insert_cost_invariant {K V : Type} [DecidableEq K] (s : CacheStore K V)
    (_hcf0 : 0 ≤ s.compactionFactor) (hcf1 : s.compactionFactor ≤ 1)
    (k : K) (v : V) (c : Nat) :
    1 < (s.insert k v c).entries.length →
      totalCost (s.insert k v c).entries ≤ s.maxCost := by
  intro hlen
  rw [CacheStore.insert] at hlen ⊢
  by_cases hover : s.maxCost < totalCost (removeKey k s.entries ++ [⟨k, v, c⟩])
  · rw [if_pos hover] at hlen ⊢
    rcases evictKeepLast_le_or_single
        (ratMul (s.maxCost : ℚ) s.compactionFactor)
        (removeKey k s.entries ++ [⟨k, v, c⟩]) with hle | hone
    · have htarget : ratMul (s.maxCost : ℚ) s.compactionFactor ≤ (s.maxCost : ℚ) := by
        rw [ratMul_eq]
        calc (s.maxCost : ℚ) * s.compactionFactor
            ≤ (s.maxCost : ℚ) * 1 := by
              exact mul_le_mul_of_nonneg_left hcf1 (by positivity)
          _ = (s.maxCost : ℚ) := mul_one _
      exact_mod_cast hle.trans htarget
    · exact absurd hlen (by simpa using Nat.not_lt.mpr hone)
  · rw [if_neg hover] at hlen ⊢
    exact Nat.le_of_not_lt hover

/-- After a `compact` with a factor in [0,1], the total cost is within
`maxCost`. -/
theorem compact_cost_invariant {K V : Type} (s : CacheStore K V) (f : ℚ)
    (hf0 : 0 ≤ f) (hf1 : f ≤ 1) :
    totalCost (s.compact f).entries ≤ s.maxCost := by
  rw [CacheStore.compact]
  have ht : (0 : ℚ) ≤ ratMul (s.maxCost : ℚ) f := by
    rw [ratMul_eq]
    positivity
  have hle := totalCost_evictUntil_le (ratMul (s.maxCost : ℚ) f) ht s.entries
  have htarget : ratMul (s.maxCost : ℚ) f ≤ (s.maxCost : ℚ) := by
    rw [ratMul_eq]
    calc (s.maxCost : ℚ) * f ≤ (s.maxCost : ℚ) * 1 :=
          mul_le_mul_of_nonneg_left hf1 (by positivity)
      _ = (s.maxCost : ℚ) := mul_one _
  exact_mod_cast hle.trans htarget

/-- Running a sequence of valid `insert`/`compact` operations on a store
whose compaction factor lies in [0,1] re-establishes the cost invariant
unless the store never changed. -/
theorem runOps_cost_invariant {K V : Type} [DecidableEq K]
    (ops : List (COp K V)) (s : CacheStore K V)
    (hcf0 : 0 ≤ s.compactionFactor) (hcf1 : s.compactionFactor ≤ 1)
    (hops : ops.all validCOp = true)
    (hs : 1 < s.entries.length → totalCost s.entries ≤ s.maxCost) :
    1 < (runOps s ops).entries.length →
      totalCost (runOps s ops).entries ≤ (runOps s ops).maxCost := by
  induction ops generalizing s with
  | nil => simpa [runOps] using hs
  | cons op rest ih =>
    simp only [List.all_cons, Bool.and_eq_true] at hops
    rw [runOps]
    cases op with
    | ins k v c =>
      rw [applyCOp]
      have hconf := insert_config s k v c
      refine ih (s.insert k v c) ?_ ?_ hops.2 ?_
      · rw [hconf.2]; exact hcf0
      · rw [hconf.2]; exact hcf1
      · intro hlen
        rw [hconf.1]
        exact insert_cost_invariant s hcf0 hcf1 k v c hlen
    | comp f =>
      rw [applyCOp]
      simp only [validCOp, Bool.and_eq_true, decide_eq_true_eq] at hops
      refine ih (s.compact f) hcf0 hcf1 hops.2 ?_
      intro _
      exact compact_cost_invariant s f (le_of_lt hops.1.1) hops.1.2

/-- The configuration of a store is unchanged by any operation
sequence. -/
theorem runOps_config {K V : Type} [DecidableEq K]
    (ops : List (COp K V)) (s : CacheStore K V) :
    (runOps s ops).maxCost = s.maxCost ∧
    (runOps s ops).compactionFactor = s.compactionFactor := by
  induction ops generalizing s with
  | nil => exact ⟨rfl, rfl⟩
  | cons op rest ih =>
    rw [runOps]
    cases op with
    | ins k v c =>
      rw [applyCOp]
      have h := ih (s.insert k v c)
      have hc := insert_config s k v c
      exact ⟨h.1.trans hc.1, h.2.trans hc.2⟩
    | comp f =>
      rw [applyCOp]
      exact ih (s.compact f)

/-! ## Claims -/

/-- C1: the claim states that destroying a `Cache` deregisters both
notification observers before the observer's memory is freed.  The code
violates this: the member written `ApplicationObserver()` (header lines
47-56) lacks a `~`, so it is a default constructor that is never
invoked, the observer's destructor is the implicitly-defined one, and
`Cache::~Cache`'s `delete applicationObserver` leaves both
registrations in the notification center.  This theorem evaluates the
failing input: constructing and then destroying a `Cache` against an
empty notification center leaves both observer registrations live
(first conjunct), while the deregistration code — had it been a
destructor — would have removed them (second conjunct). -/
theorem c1_cache_dtor_leaves_hooks_registered :
    cacheDtorNC (cacheCtorNC emptyNC 0) 0 =
      ⟨[(0, NName.lowMemory), (0, NName.enteredBackground)]⟩ ∧
    applicationObserverDefaultCtor (cacheCtorNC emptyNC 0) 0 = emptyNC := by
  constructor <;> rfl

/-- C2: `Key::operator==` returns true iff the precomputed hashes,
constrained sizes, attributes and user-interface styles are all equal,
and the comparison is short-circuited in exactly the order hash, size,
attributes, style: the trace of comparisons actually performed is the
chain cut at the first mismatch. -/
theorem c2_keyEq_iff_and_short_circuit_order {A : Type} [DecidableEq A]
    (k o : Key A) :
    (keyEq k o = true ↔
      (k.hash = o.hash ∧ k.constrainedSize = o.constrainedSize ∧
       k.attributes = o.attributes ∧
       k.userInterfaceStyle = o.userInterfaceStyle)) ∧
    (k.hash ≠ o.hash → keyEqTrace k o = [.hashCmp]) ∧
    (k.hash = o.hash → k.constrainedSize ≠ o.constrainedSize →
      keyEqTrace k o = [.hashCmp, .sizeCmp]) ∧
    (k.hash = o.hash → k.constrainedSize = o.constrainedSize →
      k.attributes ≠ o.attributes →
      keyEqTrace k o = [.hashCmp, .sizeCmp, .attrCmp]) ∧
    (k.hash = o.hash → k.constrainedSize = o.constrainedSize →
      k.attributes = o.attributes →
      keyEqTrace k o = [.hashCmp, .sizeCmp, .attrCmp, .styleCmp]) := by
  refine ⟨?_, ?_, ?_, ?_, ?_⟩
  · rw [keyEq, sccAnd_fst]
    simp [keyChecks, CGSizeEqualToSize_iff]
  · intro h
    simp [keyEqTrace, keyChecks, sccAnd, h]
  · intro h1 h2
    simp [keyEqTrace, keyChecks, sccAnd, h1, CGSizeEqualToSize_eq_false h2]
  · intro h1 h2 h3
    simp [keyEqTrace, keyChecks, sccAnd, h1, h2, CGSizeEqualToSize_self, h3]
  · intro h1 h2 h3
    by_cases hs : k.userInterfaceStyle = o.userInterfaceStyle <;>
      simp [keyEqTrace, keyChecks, sccAnd, h1, h2, h3, CGSizeEqualToSize_self, hs]

/-- Witness for C2 at concrete keys: two keys over `A = ℕ` that agree
on everything, and two that differ only in hash. -/
theorem c2_witness :
    ((Key.mk .light (5 : ℕ) ⟨1, 2⟩ 9).hash = (Key.mk .light (5 : ℕ) ⟨1, 2⟩ 9).hash ∧
      keyEqTrace (Key.mk .light (5 : ℕ) ⟨1, 2⟩ 9) (Key.mk .light (5 : ℕ) ⟨1, 2⟩ 9) =
        [.hashCmp, .sizeCmp, .attrCmp, .styleCmp]) ∧
    ((Key.mk .light (5 : ℕ) ⟨1, 2⟩ 9).hash ≠ (Key.mk .light (5 : ℕ) ⟨1, 2⟩ 8).hash ∧
      keyEqTrace (Key.mk .light (5 : ℕ) ⟨1, 2⟩ 9) (Key.mk .light (5 : ℕ) ⟨1, 2⟩ 8) =
        [.hashCmp]) := by
  refine ⟨⟨rfl, ?_⟩, ⟨by decide, ?_⟩⟩
  · exact (c2_keyEq_iff_and_short_circuit_order
      (Key.mk .light (5 : ℕ) ⟨1, 2⟩ 9) (Key.mk .light (5 : ℕ) ⟨1, 2⟩ 9)).2.2.2.2
      rfl rfl rfl
  · exact (c2_keyEq_iff_and_short_circuit_order
      (Key.mk .light (5 : ℕ) ⟨1, 2⟩ 9) (Key.mk .light (5 : ℕ) ⟨1, 2⟩ 8)).2.1
      (by decide)

/-- C10: `KeyHasher` is consistent with `Key` equality and never
recomputes: it returns the stored precomputed hash field, and equal keys
(in the sense of `Key::operator==`) have equal `KeyHasher` results. -/
theorem c10_keyHasher_consistent_with_keyEq {A : Type} [DecidableEq A] :
    (∀ k : Key A, keyHasher k = k.hash) ∧
    (∀ k1 k2 : Key A, keyEq k1 k2 = true → keyHasher k1 = keyHasher k2) := by
  constructor
  · intro k
    rfl
  · intro k1 k2 h
    rw [keyEq, sccAnd_fst] at h
    simp [keyChecks] at h
    exact h.1

/-- C3: the memory-pressure hook of a `Cache` is exactly one `compact`
call on that same cache with factor 0.95, which lies in (0,1], and has
no other effect (the resulting cache state is precisely the state after
`compact 0.95`). -/
theorem c3_low_memory_hook_is_compact {K V : Type} (c : Cache K V) :
    c.onLowMemoryHook = c.compact (mkRat 95 100) ∧
    mkRat 95 100 = (0.95 : ℚ) ∧
    0 < mkRat 95 100 ∧ mkRat 95 100 ≤ 1 := by
  refine ⟨rfl, ?_, by decide, by decide⟩
  norm_num [Rat.mkRat_eq_divInt, Rat.divInt_eq_div]

/-- C4: the backgrounding hook of a `Cache` is exactly one
`removeAllObjects` call on that same cache: the resulting state is
precisely the state after `removeAllObjects`, which holds no entries
and has total cost zero. -/
theorem c4_background_hook_is_removeAllObjects {K V : Type} (c : Cache K V) :
    c.onEnterBackgroundHook = c.removeAllObjects ∧
    c.removeAllObjects.cache.entries = [] ∧
    totalCost c.removeAllObjects.cache.entries = 0 :=
  ⟨rfl, rfl, rfl⟩

/-- C5: every public `Cache` operation is a pure delegation to the
engine: `cacheObject` is the engine's `insert`, `objectForKey` returns
exactly the engine's `find` result (and leaves the engine in exactly
the engine's post-`find` state), `compact` is the engine's `compact`,
and `removeAllObjects` is the engine's `removeAllObjects`; the facade
adds nothing. -/
theorem c5_facade_is_pure_delegation {K V : Type} [DecidableEq K]
    (c : Cache K V) (k : K) (v : V) (cost : Nat) (f : ℚ) :
    (c.cacheObject k v cost).cache = c.cache.insert k v cost ∧
    (c.objectForKey k).1 = (c.cache.find k).1 ∧
    (c.objectForKey k).2.cache = (c.cache.find k).2 ∧
    (c.compact f).cache = c.cache.compact f ∧
    c.removeAllObjects.cache = c.cache.removeAllObjects :=
  ⟨rfl, rfl, rfl, rfl, rfl⟩

/-- C6: after any sequence of valid `insert`/`compact` operations on a
fresh store whose compaction factor lies in (0,1], the total cost of
the retained entries is at most `maxCost` whenever more than one entry
is stored.  (A single oversized entry stored alone escapes the bound
only through the `length ≤ 1` exception, and the transient overshoot
inside one insert is not an observable state of the model.) -/
theorem c6_cost_invariant {K V : Type} [DecidableEq K]
    (maxCost : Nat) (cf : ℚ) (hcf0 : 0 < cf) (hcf1 : cf ≤ 1)
    (ops : List (COp K V)) (hops : ops.all validCOp = true) :
    1 < (runOps (mkStore K V maxCost cf) ops).entries.length →
      totalCost (runOps (mkStore K V maxCost cf) ops).entries ≤ maxCost := by
  intro hlen
  have hbase : 1 < (mkStore K V maxCost cf).entries.length →
      totalCost (mkStore K V maxCost cf).entries ≤ (mkStore K V maxCost cf).maxCost := by
    intro h
    simp [mkStore] at h
  have h := runOps_cost_invariant ops (mkStore K V maxCost cf)
    (le_of_lt hcf0) hcf1 hops hbase hlen
  rwa [(runOps_config ops (mkStore K V maxCost cf)).1] at h

/-- Witness for C6: the spec's own scenario (maxCost 100, three inserts
of cost 40, factor 4/5) leaves two entries and the bound holds. -/
theorem c6_witness :
    totalCost (runOps (mkStore Nat Unit 100 (mkRat 4 5))
      [.ins 1 () 40, .ins 2 () 40, .ins 3 () 40]).entries ≤ 100 :=
  c6_cost_invariant 100 (mkRat 4 5) (by decide) (by decide)
    [.ins 1 () 40, .ins 2 () 40, .ins 3 () 40] (by decide) (by decide)

/-- C7 counterexample: the claim asserts that with `maxCost = 100`,
inserting k1, k2, k3 with cost 40 each always evicts exactly k1 and
leaves {k2, k3}.  The insert-time eviction pass shrinks to
`maxCost * compactionFactor`, so for a store with compaction factor 1/2
the pass continues past k1 and also evicts k2, leaving only the
just-inserted k3. -/
theorem c7_counterexample :
    ((((mkStore Nat Unit 100 (mkRat 1 2)).insert 1 () 40).insert 2 ()
        40).insert 3 () 40).entries = [⟨3, (), 40⟩] ∧
    ((((mkStore Nat Unit 100 (mkRat 1 2)).insert 1 () 40).insert 2 ()
        40).insert 3 () 40).entries ≠ [⟨2, (), 40⟩, ⟨3, (), 40⟩] := by
  constructor
  · decide
  · decide

/-- C7 amended: with `maxCost = 100` and compaction factor `f` with
4/5 ≤ f ≤ 1 (so the shrink target `100·f` is at least the 80 retained
by the claimed outcome — the spec's scenario leaves the factor
unstated), the three inserts of cost 40 evict exactly k1, the least
recently used entry, leaving {k2, k3} with total cost 80. -/
theorem c7_insert_scenario_amended (f : ℚ)
    (hf1 : mkRat 4 5 ≤ f) (hf2 : f ≤ 1) :
    ((((mkStore Nat Unit 100 f).insert 1 () 40).insert 2 () 40).insert 3
        () 40).entries = [⟨2, (), 40⟩, ⟨3, (), 40⟩] ∧
    totalCost ((((mkStore Nat Unit 100 f).insert 1 () 40).insert 2 ()
        40).insert 3 () 40).entries = 80 := by
  have hf45 : (4 / 5 : ℚ) ≤ f := by
    have h45 : mkRat 4 5 = (4 / 5 : ℚ) := by
      norm_num [Rat.mkRat_eq_divInt, Rat.divInt_eq_div]
    rwa [h45] at hf1
  have hno : ¬ ((totalCost [(⟨1, (), 40⟩ : Entry Nat Unit), ⟨2, (), 40⟩,
      ⟨3, (), 40⟩] : ℚ) ≤ ratMul ((100 : ℕ) : ℚ) f) := by
    rw [ratMul_eq]
    norm_num [totalCost]
    linarith
  have hyes : (totalCost [(⟨2, (), 40⟩ : Entry Nat Unit), ⟨3, (), 40⟩] : ℚ)
      ≤ ratMul ((100 : ℕ) : ℚ) f := by
    rw [ratMul_eq]
    norm_num [totalCost]
    linarith
  have hev : evictKeepLast (ratMul ((100 : ℕ) : ℚ) f)
      [(⟨1, (), 40⟩ : Entry Nat Unit), ⟨2, (), 40⟩, ⟨3, (), 40⟩]
      = [⟨2, (), 40⟩, ⟨3, (), 40⟩] := by
    rw [evictKeepLast_cons₂, if_neg hno, evictKeepLast_cons₂, if_pos hyes]
  have s1 : (mkStore Nat Unit 100 f).insert 1 () 40
      = ⟨100, f, [⟨1, (), 40⟩]⟩ := by
    rw [CacheStore.insert]
    split
    next h =>
      simp [mkStore, removeKey, totalCost] at h
    next h =>
      simp [mkStore, removeKey]
  have s2 : (⟨100, f, [⟨1, (), 40⟩]⟩ : CacheStore Nat Unit).insert 2 () 40
      = ⟨100, f, [⟨1, (), 40⟩, ⟨2, (), 40⟩]⟩ := by
    rw [CacheStore.insert]
    split
    next h =>
      simp [removeKey, totalCost] at h
    next h =>
      simp [removeKey]
  have s3 : (⟨100, f, [⟨1, (), 40⟩, ⟨2, (), 40⟩]⟩ : CacheStore Nat Unit).insert 3 () 40
      = ⟨100, f, [⟨2, (), 40⟩, ⟨3, (), 40⟩]⟩ := by
    rw [CacheStore.insert]
    split
    next h =>
      show (⟨100, f, evictKeepLast (ratMul ((100 : ℕ) : ℚ) f)
        [⟨1, (), 40⟩, ⟨2, (), 40⟩, ⟨3, (), 40⟩]⟩ : CacheStore Nat Unit) = _
      rw [hev]
    next h =>
      simp [removeKey, totalCost] at h
  rw [s1, s2, s3]
  exact ⟨rfl, rfl⟩

/-- Witness for C7 (amended) at the concrete factor 4/5. -/
theorem c7_witness :
    mkRat 4 5 ≤ mkRat 4 5 ∧ mkRat 4 5 ≤ (1 : ℚ) ∧
    (((((mkStore Nat Unit 100 (mkRat 4 5)).insert 1 () 40).insert 2 ()
        40).insert 3 () 40).entries = [⟨2, (), 40⟩, ⟨3, (), 40⟩] ∧
      totalCost ((((mkStore Nat Unit 100 (mkRat 4 5)).insert 1 () 40).insert 2
        () 40).insert 3 () 40).entries = 80) :=
  ⟨by decide, by decide,
    c7_insert_scenario_amended (mkRat 4 5) (by decide) (by decide)⟩

/-- C8: eviction during `compact` and `insert` always removes entries
from the least-recently-touched end of the recency order — the
survivors are a suffix (`List.drop`) of the recency-ordered list, in
which ties cannot arise (every touch moves an entry to the unique
most-recent position, and simultaneous insertions do not exist), so the
list order is exactly "least recently touched first, earlier insertion
first".  Concretely: after inserting A=1, B=2, C=3 (cost 30 each, no
eviction), finding A, and compacting with factor 3/5 (forcing exactly
one eviction), B is evicted and A and C are retained. -/
theorem c8_eviction_in_recency_order {K V : Type} [DecidableEq K] :
    (∀ (s : CacheStore K V) (f : ℚ),
      ∃ n, (s.compact f).entries = s.entries.drop n) ∧
    (∀ (s : CacheStore K V) (k : K) (v : V) (c : Nat),
      ∃ n, (s.insert k v c).entries =
        (removeKey k s.entries ++ [(⟨k, v, c⟩ : Entry K V)]).drop n) ∧
    ((((((mkStore Nat Unit 100 1).insert 1 () 30).insert 2 () 30).insert 3
        () 30).find 1).2.compact (mkRat 3 5)).entries
      = [⟨3, (), 30⟩, ⟨1, (), 30⟩] := by
  refine ⟨?_, ?_, ?_⟩
  · intro s f
    exact evictUntil_drop (ratMul (s.maxCost : ℚ) f) s.entries
  · intro s k v c
    rw [CacheStore.insert]
    split
    · exact evictKeepLast_drop _ _
    · exact ⟨0, rfl⟩
  · decide

/-- C9: at the precondition-checked boundary, a negative insert cost or
a compaction factor outside (0,1] fails fast with a reported contract
violation; every valid input succeeds with no error; and a `find` miss
is an ordinary empty result that leaves the store untouched. -/
theorem c9_fail_fast_and_totality {K V : Type} [DecidableEq K]
    (s : CacheStore K V) (k : K) (v : V) (c : Int) (f : ℚ) :
    (c < 0 → s.insertChecked k v c = .error .negativeCost) ∧
    (0 ≤ c → s.insertChecked k v c = .ok (s.insert k v c.toNat)) ∧
    (¬ (0 < f ∧ f ≤ 1) → s.compactChecked f = .error .factorOutOfRange) ∧
    (0 < f → f ≤ 1 → s.compactChecked f = .ok (s.compact f)) ∧
    ((∀ e ∈ s.entries, e.key ≠ k) → (s.find k).1 = none ∧ (s.find k).2 = s) := by
  refine ⟨?_, ?_, ?_, ?_, ?_⟩
  · intro h
    rw [CacheStore.insertChecked, if_pos h]
  · intro h
    rw [CacheStore.insertChecked, if_neg (not_lt.mpr h)]
  · intro h
    rw [CacheStore.compactChecked, if_neg h]
  · intro h1 h2
    rw [CacheStore.compactChecked, if_pos ⟨h1, h2⟩]
  · intro h
    have hf : s.entries.find? (fun e => decide (e.key = k)) = none := by
      rw [List.find?_eq_none]
      intro e he
      simpa using h e he
    rw [CacheStore.find, hf]
    exact ⟨rfl, rfl⟩

/-- Witness for C9 at concrete stores and arguments: a negative cost is
rejected, a factor of 2 is rejected, valid arguments succeed, and a
miss on an empty store is an empty result. -/
theorem c9_witness :
    ((mkStore Nat Nat 10 1).insertChecked 1 5 (-3) = .error .negativeCost) ∧
    ((mkStore Nat Nat 10 1).insertChecked 1 5 4 =
      .ok ((mkStore Nat Nat 10 1).insert 1 5 (Int.toNat 4))) ∧
    ((mkStore Nat Nat 10 1).compactChecked 2 = .error .factorOutOfRange) ∧
    ((mkStore Nat Nat 10 1).compactChecked 1 =
      .ok ((mkStore Nat Nat 10 1).compact 1)) ∧
    (((mkStore Nat Nat 10 1).find 3).1 = none ∧
      ((mkStore Nat Nat 10 1).find 3).2 = mkStore Nat Nat 10 1) := by
  refine ⟨?_, ?_, ?_, ?_, ?_⟩
  · exact (c9_fail_fast_and_totality (mkStore Nat Nat 10 1) 1 5 (-3) 1).1
      (by decide)
  · exact (c9_fail_fast_and_totality (mkStore Nat Nat 10 1) 1 5 4 1).2.1
      (by decide)
  · exact (c9_fail_fast_and_totality (mkStore Nat Nat 10 1) 1 5 4 2).2.2.1
      (by decide)
  · exact (c9_fail_fast_and_totality (mkStore Nat Nat 10 1) 1 5 4 1).2.2.2.1
      (by decide) (by decide)
  · exact (c9_fail_fast_and_totality (mkStore Nat Nat 10 1) 3 5 4 1).2.2.2.2
      (by decide)

/-- Witness for C10 at concrete keys over `A = ℕ`. -/
theorem c10_witness :
    keyEq (Key.mk .dark (3 : ℕ) ⟨4, 4⟩ 17) (Key.mk .dark (3 : ℕ) ⟨4, 4⟩ 17) = true ∧
    keyHasher (Key.mk .dark (3 : ℕ) ⟨4, 4⟩ 17) =
      keyHasher (Key.mk .dark (3 : ℕ) ⟨4, 4⟩ 17) := by
  refine ⟨by decide, ?_⟩
  exact (c10_keyHasher_consistent_with_keyEq (A := ℕ)).2
    (Key.mk .dark 3 ⟨4, 4⟩ 17) (Key.mk .dark 3 ⟨4, 4⟩ 17) (by decide)

end CKRendererCache
